import Mathlib

/-!
Verification of the conversation/orchestration core of a chat-bot image
generation service against its natural-language specification.

The definitions below are shallow embeddings of the Python source:

* `retry_request` embeds `helper.retry_request` (helper.py, lines 55-76);
* `parseAllowList`, `is_user`, `is_admin` embed `AuthHelper` (helper.py, 78-87);
* further sections embed the creative-upscale result decoding, the
  search-and-replace fallback, the session reaper, the gated entry commands,
  and the outpaint geometry.

Machine arithmetic that the Python code performs on floats is modelled over
the rationals; the square root appearing in the pixel-budget rescaling is
passed as an explicit nonnegative parameter constrained by its defining
equation.
-/

namespace ImageBot

/-- Exceptions a single HTTP attempt can raise, as distinguished by
`retry_request`: network-level errors (requests.Timeout and
requests.ConnectionError) and HTTP status errors carrying a status code.
The `tag` field lets distinct error objects be told apart. -/
inductive ReqErr where
  | net (tag : Nat) : ReqErr
  | http (status : Nat) (tag : Nat) : ReqErr
deriving DecidableEq, Repr

/-- Outcome of one call to the wrapped request function. -/
inductive Attempt where
  | ok (v : Nat) : Attempt
  | err (e : ReqErr) : Attempt
deriving DecidableEq, Repr

/-- An error is retried exactly when it is a network error or an HTTP error
with a 5xx status, mirroring the two `except` arms of `retry_request`. -/
def ReqErr.retryable : ReqErr → Bool
  | .net _ => true
  | .http status _ => 500 ≤ status && status < 600

/-- Final outcome of the retry loop: either the value returned by a
successful attempt, or the error re-raised to the caller. -/
inductive RetryOutcome where
  | ok (v : Nat) : RetryOutcome
  | raised (e : ReqErr) : RetryOutcome
deriving DecidableEq, Repr

/-- Result of running the retry loop: the final outcome (success value or
re-raised error), the number of attempts made, and the sleep delays
performed between attempts, in order. -/
structure RetryResult where
  outcome : RetryOutcome
  attempts : Nat
  delays : List Nat
deriving DecidableEq, Repr

/-- The body of the `for attempt in range(1, max_attempts + 1)` loop of
`retry_request`.  `remaining` counts the attempts still allowed after the
current one (`remaining = 0` corresponds to `attempt == max_attempts`);
`delay` is the current backoff delay. -/
def retryRec (f : Nat → Attempt) : Nat → Nat → Nat → RetryResult
  | attempt, delay, remaining =>
    match f attempt with
    | .ok v => ⟨.ok v, 1, []⟩
    | .err e =>
      if e.retryable then
        match remaining with
        | 0 => ⟨.raised e, 1, []⟩
        | r + 1 =>
          let rest := retryRec f (attempt + 1) (delay * 2) r
          ⟨rest.outcome, rest.attempts + 1, delay :: rest.delays⟩
      else ⟨.raised e, 1, []⟩

/-- Embedding of `helper.retry_request`: three attempts total, initial
delay one time-unit, doubling after each retried failure. -/
def retry_request (f : Nat → Attempt) : RetryResult :=
  retryRec f 1 1 2

/-- Embedding of the allow-list parsing in `AuthHelper.__init__`:
`os.getenv(VAR, "").split(",")`.  A missing environment variable is the
`none` case; note that splitting the empty string yields `[""]`, not `[]`,
exactly as in Python. -/
def parseAllowList (env : Option String) : List String :=
  (((env.getD "").toList).splitOn ',').map (fun cs => String.mk cs)

/-- Embedding of `AuthHelper.is_user` (and structurally `is_admin`):
access is granted when the allow-list contains the wildcard entry or the
caller id itself. -/
def is_user (allowed : List String) (id : String) : Bool :=
  allowed.contains "*" || allowed.contains id

/-- Embedding of `AuthHelper.is_admin`; identical logic over the admin
allow-list. -/
def is_admin (allowed : List String) (id : String) : Bool :=
  allowed.contains "*" || allowed.contains id

/-- C1: through the retry helper, retryable failures (network errors and
HTTP 5xx) are retried up to 3 attempts total with delays 1 then 2; a 4xx
error causes exactly one attempt and no retry; and when every attempt
fails the last error is re-raised. -/
theorem retry_request_policy :
    (∀ f : Nat → Attempt, ∀ e₁ e₂ : ReqErr, ∀ v : Nat,
      e₁.retryable = true → e₂.retryable = true →
      f 1 = .err e₁ → f 2 = .err e₂ → f 3 = .ok v →
      retry_request f = ⟨.ok v, 3, [1, 2]⟩) ∧
    (∀ f : Nat → Attempt, ∀ s t : Nat,
      400 ≤ s → s < 500 → f 1 = .err (.http s t) →
      retry_request f = ⟨.raised (.http s t), 1, []⟩) ∧
    (∀ f : Nat → Attempt, ∀ e₁ e₂ e₃ : ReqErr,
      e₁.retryable = true → e₂.retryable = true → e₃.retryable = true →
      f 1 = .err e₁ → f 2 = .err e₂ → f 3 = .err e₃ →
      retry_request f = ⟨.raised e₃, 3, [1, 2]⟩) := by
  refine ⟨?_, ?_, ?_⟩
  · intro f e₁ e₂ v h₁ h₂ hf₁ hf₂ hf₃
    simp [retry_request, retryRec, hf₁, hf₂, hf₃, h₁, h₂]
  · intro f s t hs₁ hs₂ hf₁
    have hnr : (ReqErr.http s t).retryable = false := by
      simp only [ReqErr.retryable, Bool.and_eq_false_iff,
        decide_eq_false_iff_not, not_le, not_lt]
      omega
    simp [retry_request, retryRec, hf₁, hnr]
  · intro f e₁ e₂ e₃ h₁ h₂ h₃ hf₁ hf₂ hf₃
    simp [retry_request, retryRec, hf₁, hf₂, hf₃, h₁, h₂, h₃]

/-- Witness for C1: a concrete run of each of the three branches of the
retry policy. -/
theorem retry_request_policy_witness :
    retry_request (fun n => if n = 3 then .ok 7 else .err (.net 0)) =
      ⟨.ok 7, 3, [1, 2]⟩ ∧
    retry_request (fun _ => .err (.http 404 0)) =
      ⟨.raised (.http 404 0), 1, []⟩ ∧
    retry_request (fun n => .err (.http 503 n)) =
      ⟨.raised (.http 503 3), 3, [1, 2]⟩ := by
  refine ⟨?_, ?_, ?_⟩
  · exact retry_request_policy.1 _ (.net 0) (.net 0) 7 rfl rfl rfl rfl rfl
  · exact retry_request_policy.2.1 _ 404 0 (by decide) (by decide) rfl
  · exact retry_request_policy.2.2 _ (.http 503 1) (.http 503 2) (.http 503 3)
      rfl rfl rfl rfl rfl rfl

/-- C10 counterexample: with the USER_ID configuration missing, the parsed
allow-list is the one-element list containing the empty string, not the
empty list, and the empty-string caller id is accepted; so the set is not
empty and not every caller id is denied. -/
theorem missing_config_not_empty :
    parseAllowList none ≠ [] ∧
    parseAllowList none = [""] ∧
    is_user (parseAllowList none) "" = true := by
  refine ⟨?_, ?_, ?_⟩ <;> decide

/-- C10 (amended): `is_user` returns true exactly when the allow-list has a
wildcard entry or contains the caller id; it is a pure total function; and
with a missing configuration the parsed list is `[""]`, so every nonempty
caller id is denied. -/
theorem is_user_amended :
    (∀ allowed : List String, ∀ id : String,
      is_user allowed id = true ↔ "*" ∈ allowed ∨ id ∈ allowed) ∧
    (∀ allowed : List String, ∀ id : String,
      is_admin allowed id = true ↔ "*" ∈ allowed ∨ id ∈ allowed) ∧
    parseAllowList none = [""] ∧
    (∀ id : String, id ≠ "" → is_user (parseAllowList none) id = false) := by
  refine ⟨?_, ?_, by decide, ?_⟩
  · intro allowed id
    simp [is_user]
  · intro allowed id
    simp [is_admin]
  · intro id hid
    have h : parseAllowList none = [""] := by decide
    rw [h]
    simp [is_user, hid]

/-- Witness for C10 (amended): the characterization and the deny branch
evaluated at a concrete allow-list and caller id. -/
theorem is_user_amended_witness :
    (is_user ["42", "99"] "7" = true ↔ "*" ∈ ["42", "99"] ∨ "7" ∈ ["42", "99"]) ∧
    is_user (parseAllowList none) "7" = false := by
  constructor
  · exact is_user_amended.1 ["42", "99"] "7"
  · exact is_user_amended.2.2.2 "7" (by decide)

/-! ### Creative-upscale polling result decoding (helper.upscale_image, lines 407-537) -/

/-- Python truthiness of an optional string field obtained with `.get`:
a missing key and an empty string are both falsy. -/
def truthy : Option String → Option String
  | some s => if s = "" then none else some s
  | none => none

/-- One element of the `output` or `artifacts` arrays of a poll response. -/
structure PollArtifact where
  url : Option String
  b64 : Option String
deriving DecidableEq, Repr

/-- The JSON body of an HTTP-200 poll response for a creative upscale job,
restricted to the fields the client inspects. -/
structure PollJson where
  status : Option String
  finishReason : Option String
  output : Option (List PollArtifact)
  b64 : Option String
  artifacts : Option (List PollArtifact)
deriving DecidableEq, Repr

/-- The success test of the poll loop: `status == "succeeded"` or
`finish_reason == "SUCCESS"`. -/
def PollJson.isSuccess (r : PollJson) : Bool :=
  r.status == some "succeeded" || r.finishReason == some "SUCCESS"

/-- The `image_url` extraction: `output and isinstance(output, list) and
output[0].get("url")`; an absent or empty list, or a falsy url, yields
nothing. -/
def outputUrl (r : PollJson) : Option String :=
  match r.output with
  | some (a :: _) => truthy a.url
  | _ => none

/-- Which result encoding the success branch of the poll loop commits to. -/
inductive EncodingChoice where
  | directUrl (u : String) : EncodingChoice
  | inlineB64 (s : String) : EncodingChoice
  | legacyArtifacts (s : String) : EncodingChoice
  | noImage : EncodingChoice
deriving DecidableEq, Repr

/-- Embedding of the success branch of the creative-upscale poll loop: try
the direct downloadable URL first, then the inline single base64 payload,
then the legacy artifacts array; report no image when all are absent. -/
def chooseEncoding (r : PollJson) : EncodingChoice :=
  match outputUrl r with
  | some u => .directUrl u
  | none =>
    match truthy r.b64 with
    | some s => .inlineB64 s
    | none =>
      match r.artifacts with
      | some (a :: _) =>
        match truthy a.b64 with
        | some s => .legacyArtifacts s
        | none => .noImage
      | _ => .noImage

/-- C2: on a successful poll response the client commits to the first
present encoding in the order direct URL, inline base64, legacy
artifacts base64. -/
theorem upscale_encoding_order (r : PollJson) (_hsuc : r.isSuccess = true) :
    (∀ u, outputUrl r = some u → chooseEncoding r = .directUrl u) ∧
    (outputUrl r = none → ∀ s, truthy r.b64 = some s →
      chooseEncoding r = .inlineB64 s) ∧
    (outputUrl r = none → truthy r.b64 = none →
      ∀ a rest s, r.artifacts = some (a :: rest) → truthy a.b64 = some s →
      chooseEncoding r = .legacyArtifacts s) := by
  refine ⟨?_, ?_, ?_⟩
  · intro u hu
    simp [chooseEncoding, hu]
  · intro hu s hs
    simp [chooseEncoding, hu, hs]
  · intro hu hb a rest s ha hs
    simp [chooseEncoding, hu, hb, ha, hs]

/-- Witness for C2: three concrete poll responses, one per encoding shape;
in particular a response exposing only the legacy artifacts shape is
decoded from it. -/
theorem upscale_encoding_order_witness :
    chooseEncoding ⟨some "succeeded", none, some [⟨some "http", none⟩], some "b", some [⟨none, some "c"⟩]⟩ =
      .directUrl "http" ∧
    chooseEncoding ⟨some "succeeded", none, none, some "b", some [⟨none, some "c"⟩]⟩ =
      .inlineB64 "b" ∧
    chooseEncoding ⟨none, some "SUCCESS", none, none, some [⟨none, some "c"⟩]⟩ =
      .legacyArtifacts "c" := by
  refine ⟨?_, ?_, ?_⟩
  · exact (upscale_encoding_order _ (by decide)).1 "http" (by decide)
  · exact (upscale_encoding_order _ (by decide)).2.1 (by decide) "b" (by decide)
  · exact (upscale_encoding_order _ (by decide)).2.2 (by decide) (by decide)
      ⟨none, some "c"⟩ [] "c" (by decide) (by decide)

/-! ### Session reaper (main._check_timeout, lines 235-261; scheduled every
10 time-units by _create_application, lines 226-232) -/

/-- The two user-visible notices the reaper can send. -/
inductive Notice where
  | expired : Notice
  | stepDelay : Notice
deriving DecidableEq, Repr

/-- A session's `user_data` dictionary, restricted to the keys the reaper
inspects (`last_message_time`, `current_state`) plus the remaining
accumulated parameters. -/
structure UserData where
  lastMessageTime : Option ℚ
  currentState : Option Nat
  extra : List (String × String)
deriving DecidableEq, Repr

/-- The result of `user_data.clear()`. -/
def UserData.empty : UserData := ⟨none, none, []⟩

/-- `LOOP_TIMEOUT_DURATION = 60`, the per-step threshold. -/
def LOOP_TIMEOUT_DURATION : ℚ := 60

/-- `STALL_TIMEOUT_DURATION = 180`, the stall threshold. -/
def STALL_TIMEOUT_DURATION : ℚ := 180

/-- The per-session body of `_check_timeout` under the assumption that
sending the notice succeeds: stalled sessions are notified and cleared;
mid-flow sessions past the step threshold are notified and have their
activity timestamp refreshed. -/
def checkTimeoutSession (now : ℚ) (u : UserData) : UserData × List Notice :=
  match u.lastMessageTime with
  | none => (u, [])
  | some t =>
    if now - t > STALL_TIMEOUT_DURATION then (UserData.empty, [.expired])
    else if u.currentState.isSome ∧ now - t > LOOP_TIMEOUT_DURATION then
      ({ u with lastMessageTime := some now }, [.stepDelay])
    else (u, [])

/-- Embedding of the full `_check_timeout` pass.  `ok c` tells whether
`bot.send_message` to chat `c` succeeds; a raised send error propagates out
of the scan (there is no try/except in the loop body), leaving the current
session unmodified and the remaining sessions unprocessed.  Returns the
updated session table, the notices delivered (chat id and kind, in order),
and whether the scan was aborted by an exception. -/
def reaperScan (ok : Nat → Bool) (now : ℚ) :
    List (Nat × UserData) → List (Nat × UserData) × List (Nat × Notice) × Bool
  | [] => ([], [], false)
  | (c, u) :: rest =>
    match u.lastMessageTime with
    | none =>
      let r := reaperScan ok now rest
      ((c, u) :: r.1, r.2.1, r.2.2)
    | some t =>
      if now - t > STALL_TIMEOUT_DURATION then
        if ok c then
          let r := reaperScan ok now rest
          ((c, UserData.empty) :: r.1, (c, .expired) :: r.2.1, r.2.2)
        else ((c, u) :: rest, [], true)
      else if u.currentState.isSome ∧ now - t > LOOP_TIMEOUT_DURATION then
        if ok c then
          let r := reaperScan ok now rest
          ((c, { u with lastMessageTime := some now }) :: r.1,
            (c, .stepDelay) :: r.2.1, r.2.2)
        else ((c, u) :: rest, [], true)
      else
        let r := reaperScan ok now rest
        ((c, u) :: r.1, r.2.1, r.2.2)

/-- C4: when all notifications go through, one reaper pass processes every
session exactly once; a session idle beyond the stall threshold gets
exactly one expiry notice and all its data cleared; a mid-flow session
idle beyond the step threshold but not beyond the stall threshold gets
exactly one step-delay notice and its activity timestamp reset to now,
with none of its other data touched. -/
theorem reaper_pass_behavior :
    (∀ ok : Nat → Bool, ∀ now : ℚ, ∀ l : List (Nat × UserData),
      (∀ c, ok c = true) →
      reaperScan ok now l =
        (l.map (fun p => (p.1, (checkTimeoutSession now p.2).1)),
         l.flatMap (fun p => ((checkTimeoutSession now p.2).2).map (fun n => (p.1, n))),
         false)) ∧
    (∀ now t : ℚ, ∀ u : UserData, u.lastMessageTime = some t →
      now - t > STALL_TIMEOUT_DURATION →
      checkTimeoutSession now u = (UserData.empty, [.expired])) ∧
    (∀ now t : ℚ, ∀ u : UserData, u.lastMessageTime = some t →
      u.currentState.isSome → now - t > LOOP_TIMEOUT_DURATION →
      ¬ now - t > STALL_TIMEOUT_DURATION →
      checkTimeoutSession now u =
        ({ u with lastMessageTime := some now }, [.stepDelay])) := by
  refine ⟨?_, ?_, ?_⟩
  · intro ok now l hok
    induction l with
    | nil => simp [reaperScan]
    | cons p rest ih =>
      obtain ⟨c, u⟩ := p
      match hu : u.lastMessageTime with
      | none =>
        simp [reaperScan, hu, ih, checkTimeoutSession]
      | some t =>
        by_cases hstall : now - t > STALL_TIMEOUT_DURATION
        · simp [reaperScan, hu, hok, hstall, ih, checkTimeoutSession]
        · by_cases hstep : u.currentState.isSome ∧ now - t > LOOP_TIMEOUT_DURATION
          · simp [reaperScan, hu, hok, hstall, hstep, ih, checkTimeoutSession]
          · simp [reaperScan, hu, hok, hstall, hstep, ih, checkTimeoutSession]
  · intro now t u ht hstall
    simp [checkTimeoutSession, ht, hstall]
  · intro now t u ht hstate hstep hstall
    simp [checkTimeoutSession, ht, hstall, hstate, hstep]

/-- Witness for C4: a concrete pass over one stalled session, one mid-flow
delayed session and one fresh session, with all notifications delivered. -/
theorem reaper_pass_behavior_witness :
    reaperScan (fun _ => true) 200
        [(1, ⟨some 0, none, [("prompt", "cat")]⟩),
         (2, ⟨some 100, some 5, [("prompt", "dog")]⟩),
         (3, ⟨some 195, some 5, []⟩)] =
      ([(1, UserData.empty),
        (2, ⟨some 200, some 5, [("prompt", "dog")]⟩),
        (3, ⟨some 195, some 5, []⟩)],
       [(1, .expired), (2, .stepDelay)],
       false) ∧
    checkTimeoutSession 200 ⟨some 0, none, [("prompt", "cat")]⟩ =
      (UserData.empty, [.expired]) ∧
    checkTimeoutSession 200 ⟨some 100, some 5, [("prompt", "dog")]⟩ =
      (⟨some 200, some 5, [("prompt", "dog")]⟩, [.stepDelay]) := by
  refine ⟨?_, ?_, ?_⟩
  · rw [reaper_pass_behavior.1 (fun _ => true) 200 _ (fun _ => rfl)]
    norm_num [checkTimeoutSession, STALL_TIMEOUT_DURATION, LOOP_TIMEOUT_DURATION,
      UserData.empty]
  · exact reaper_pass_behavior.2.1 200 0 _ rfl (by norm_num [STALL_TIMEOUT_DURATION])
  · exact reaper_pass_behavior.2.2 200 100 ⟨some 100, some 5, [("prompt", "dog")]⟩
      rfl rfl (by norm_num [LOOP_TIMEOUT_DURATION])
      (by norm_num [STALL_TIMEOUT_DURATION])

/-- C5 counterexample: two stalled sessions; notifying the first fails, and
the failure aborts the whole scan: the second session is neither notified
nor cleared on that pass, so a notification failure is not isolated to its
own session. -/
theorem reaper_scan_failure_not_isolated :
    reaperScan (fun c => c != 1) 200
        [(1, ⟨some 0, none, []⟩), (2, ⟨some 0, none, []⟩)] =
      ([(1, ⟨some 0, none, []⟩), (2, ⟨some 0, none, []⟩)], [], true) := by
  norm_num [reaperScan, STALL_TIMEOUT_DURATION]

/-- C5 (amended): a failure while notifying one session propagates out of
the reaper scan: the failing session keeps its data (it is not cleared, and
its timestamp is not refreshed) and every remaining session in that pass is
left unprocessed, receiving no notice. -/
theorem reaper_scan_abort :
    (∀ ok : Nat → Bool, ∀ now t : ℚ, ∀ c : Nat, ∀ u : UserData,
      ∀ rest : List (Nat × UserData),
      u.lastMessageTime = some t → now - t > STALL_TIMEOUT_DURATION →
      ok c = false →
      reaperScan ok now ((c, u) :: rest) = ((c, u) :: rest, [], true)) ∧
    (∀ ok : Nat → Bool, ∀ now t : ℚ, ∀ c : Nat, ∀ u : UserData,
      ∀ rest : List (Nat × UserData),
      u.lastMessageTime = some t → ¬ now - t > STALL_TIMEOUT_DURATION →
      u.currentState.isSome → now - t > LOOP_TIMEOUT_DURATION →
      ok c = false →
      reaperScan ok now ((c, u) :: rest) = ((c, u) :: rest, [], true)) := by
  constructor
  · intro ok now t c u rest ht hstall hfail
    simp [reaperScan, ht, hstall, hfail]
  · intro ok now t c u rest ht hstall hstate hstep hfail
    simp [reaperScan, ht, hstall, hstate, hstep, hfail]

/-- Witness for C5 (amended): both abort branches at concrete inputs. -/
theorem reaper_scan_abort_witness :
    reaperScan (fun _ => false) 200 [(1, ⟨some 0, none, []⟩), (2, ⟨some 0, none, []⟩)] =
      ([(1, ⟨some 0, none, []⟩), (2, ⟨some 0, none, []⟩)], [], true) ∧
    reaperScan (fun _ => false) 200 [(1, ⟨some 100, some 5, []⟩), (2, ⟨some 0, none, []⟩)] =
      ([(1, ⟨some 100, some 5, []⟩), (2, ⟨some 0, none, []⟩)], [], true) := by
  constructor
  · exact reaper_scan_abort.1 (fun _ => false) 200 0 1 ⟨some 0, none, []⟩ _
      rfl (by norm_num [STALL_TIMEOUT_DURATION]) rfl
  · exact reaper_scan_abort.2 (fun _ => false) 200 100 1 ⟨some 100, some 5, []⟩ _
      rfl (by norm_num [STALL_TIMEOUT_DURATION]) rfl
      (by norm_num [LOOP_TIMEOUT_DURATION]) rfl

/-! ### Search-and-replace fallback (helper.search_and_replace, lines 899-995) -/

/-- The JSON body of a search-and-replace response, restricted to what the
client inspects: the optional `errors` list, the first artifact (seed and
base64 payload) when present, and whether the textual rendering of the
failure mentions the separate field names `search_prompt` or
`replace_prompt` (the substring test driving the fallback). -/
structure SRBody where
  errors : Option (List String)
  artifact : Option (Nat × String)
  mentionsFields : Bool
deriving DecidableEq, Repr

/-- Outcome of one `retry_request(requests.post, ...)` call in
`search_and_replace`: either a transport-level exception surviving the
retry helper, or an HTTP response with a status and body. -/
inductive SRAttempt where
  | transport : SRAttempt
  | resp (status : Nat) (body : SRBody) : SRAttempt
deriving DecidableEq, Repr

/-- Observable trace of one `search_and_replace` call: how many HTTP
requests were issued and the artifact written out, if any (`none` is the
function returning None to its caller). -/
structure SRTrace where
  requests : Nat
  result : Option (Nat × String)
deriving DecidableEq, Repr

/-- The final processing of whatever response object is left in `response`
(lines 993-1005): re-check the embedded error list, then read
`artifacts[0]`; any missing key raises and becomes a None return. -/
def processBody (b : SRBody) (n : Nat) : SRTrace :=
  if b.errors.isSome then ⟨n, none⟩
  else
    match b.artifact with
    | some a => ⟨n, some a⟩
    | none => ⟨n, none⟩

/-- Embedding of `search_and_replace` as a function of the outcomes of the
combined-field request and of the (potential) separate-fields fallback
request.  A first-attempt failure is an HTTP status of 400 or above or an
embedded error list; the fallback fires only when the failure text mentions
the separate field names; a transport-level exception is not caught by the
inner `except HTTPError` handler and aborts with no fallback. -/
def search_and_replace (first second : SRAttempt) : SRTrace :=
  match first with
  | .transport => ⟨1, none⟩
  | .resp st body =>
    if 400 ≤ st ∨ body.errors.isSome then
      if body.mentionsFields then
        match second with
        | .transport => ⟨2, none⟩
        | .resp _ body₂ => processBody body₂ 2
      else processBody body 1
    else processBody body 1

/-- C3 counterexample: the combined-field attempt fails — once at transport
level, once with an HTTP-200 body carrying an embedded error list (whose
text does not mention the separate field names) — yet no fallback request
is made: only one request is issued, where the claim requires exactly one
fallback. -/
theorem search_and_replace_no_fallback :
    search_and_replace (.resp 200 ⟨some ["generic failure"], none, false⟩)
        (.resp 200 ⟨none, some (5, "img"), true⟩) = ⟨1, none⟩ ∧
    search_and_replace .transport
        (.resp 200 ⟨none, some (5, "img"), true⟩) = ⟨1, none⟩ := by
  constructor
  · simp [search_and_replace, processBody]
  · simp [search_and_replace]

/-- C3 (amended): the combined request is issued first; exactly one
fallback request with the separate fields is made when and only when the
first attempt fails (HTTP status error, or embedded error list in an
HTTP-200 body) with a failure text mentioning the separate field names; a
transport-level first failure makes no fallback and surfaces failure; and
when the fallback is made its response body, not the original failure,
determines the outcome. -/
theorem search_and_replace_fallback_amended :
    (∀ st : Nat, ∀ body : SRBody, ∀ second : SRAttempt,
      400 ≤ st ∨ body.errors.isSome = true → body.mentionsFields = true →
      (search_and_replace (.resp st body) second).requests = 2) ∧
    (∀ st : Nat, ∀ body : SRBody, ∀ second : SRAttempt,
      body.mentionsFields = false →
      (search_and_replace (.resp st body) second).requests = 1) ∧
    (∀ second : SRAttempt, search_and_replace .transport second = ⟨1, none⟩) ∧
    (∀ st : Nat, ∀ body : SRBody, ∀ st₂ : Nat, ∀ body₂ : SRBody,
      400 ≤ st ∨ body.errors.isSome = true → body.mentionsFields = true →
      search_and_replace (.resp st body) (.resp st₂ body₂) =
        processBody body₂ 2) := by
  refine ⟨?_, ?_, ?_, ?_⟩
  · intro st body second hfail hmention
    match second with
    | .transport => simp [search_and_replace, hfail, hmention]
    | .resp st₂ body₂ =>
      simp only [search_and_replace, if_pos hfail, hmention, if_pos]
      cases hb : body₂.errors.isSome <;> simp [processBody, hb]
      cases body₂.artifact <;> simp
  · intro st body second hmention
    by_cases hfail : 400 ≤ st ∨ body.errors.isSome = true
    · simp only [search_and_replace, if_pos hfail, hmention]
      cases hb : body.errors.isSome <;> simp [processBody, hb]
      cases body.artifact <;> simp
    · simp only [search_and_replace, if_neg hfail]
      cases hb : body.errors.isSome <;> simp [processBody, hb]
      cases body.artifact <;> simp
  · intro second
    simp [search_and_replace]
  · intro st body st₂ body₂ hfail hmention
    simp [search_and_replace, hfail, hmention]

/-- Witness for C3 (amended): all four branches at concrete inputs. -/
theorem search_and_replace_fallback_amended_witness :
    (search_and_replace (.resp 400 ⟨none, none, true⟩)
      (.resp 200 ⟨none, some (5, "img"), true⟩)).requests = 2 ∧
    (search_and_replace (.resp 400 ⟨none, none, false⟩)
      (.resp 200 ⟨none, some (5, "img"), true⟩)).requests = 1 ∧
    search_and_replace .transport (.resp 200 ⟨none, some (5, "img"), true⟩) =
      ⟨1, none⟩ ∧
    search_and_replace (.resp 400 ⟨none, none, true⟩)
        (.resp 200 ⟨none, some (5, "img"), true⟩) =
      processBody ⟨none, some (5, "img"), true⟩ 2 := by
  refine ⟨?_, ?_, ?_, ?_⟩
  · exact search_and_replace_fallback_amended.1 400 ⟨none, none, true⟩ _
      (Or.inl (by decide)) rfl
  · exact search_and_replace_fallback_amended.2.1 400 ⟨none, none, false⟩ _ rfl
  · exact search_and_replace_fallback_amended.2.2.1 _
  · exact search_and_replace_fallback_amended.2.2.2 400 ⟨none, none, true⟩ 200
      ⟨none, some (5, "img"), true⟩ (Or.inl (by decide)) rfl

/-! ### Gated entry commands (routes.image_command, lines 157-173;
routes.upscale_command, lines 325-351; routes._update_last_message_time,
lines 61-63) -/

/-- The numeric value of `ConversationState.WAITING_FOR_PROMPT` (the first
`auto()` member of the enum). -/
def WAITING_FOR_PROMPT : Nat := 1

/-- The numeric value of `ConversationState.WAITING_FOR_UPSCALE_METHOD`
(the sixth `auto()` member of the enum). -/
def WAITING_FOR_UPSCALE_METHOD : Nat := 6

/-- Replies an entry command can send. -/
inductive BotReply where
  | accessDenied : BotReply
  | askPrompt : BotReply
  | askUpscaleMethod : BotReply
deriving DecidableEq, Repr

/-- What the handler returns to the conversation dispatcher. -/
inductive FlowStep where
  | ended : FlowStep
  | waiting (s : Nat) : FlowStep
deriving DecidableEq, Repr

/-- Dictionary assignment on the residual session parameters. -/
def UserData.setExtra (u : UserData) (k v : String) : UserData :=
  { u with extra := (k, v) :: u.extra.filter (fun p => p.1 ≠ k) }

/-- Embedding of `routes.image_command`: refresh `last_message_time`, set
the `current_state` marker, and only then check authorization; a denied
caller gets the denial reply and `ConversationHandler.END`. -/
def image_command (allowedUsers : List String) (callerId : String) (now : ℚ)
    (u : UserData) : UserData × List BotReply × FlowStep :=
  let u₁ := { u with lastMessageTime := some now }
  let u₂ := { u₁ with currentState := some WAITING_FOR_PROMPT }
  if is_user allowedUsers callerId then
    (u₂, [.askPrompt], .waiting WAITING_FOR_PROMPT)
  else
    (u₂, [.accessDenied], .ended)

/-- Embedding of `routes.upscale_command`: refresh `last_message_time`,
then check authorization; a denied caller gets the denial reply and
`ConversationHandler.END`; an authorized caller has `generation_type` set
and is asked for the method. -/
def upscale_command (allowedUsers : List String) (callerId : String) (now : ℚ)
    (u : UserData) : UserData × List BotReply × FlowStep :=
  let u₁ := { u with lastMessageTime := some now }
  if is_user allowedUsers callerId then
    (u₁.setExtra "generation_type" "Upscale", [.askUpscaleMethod],
      .waiting WAITING_FOR_UPSCALE_METHOD)
  else
    (u₁, [.accessDenied], .ended)

/-- C6 counterexample: an unauthorized caller of /imagine starts from an
empty session, is denied, and yet the session data afterwards differs from
the data before: the activity timestamp and the stage marker were written
before the authorization check. -/
theorem denied_command_mutates_session :
    image_command ["42"] "7" 100 UserData.empty =
      (⟨some 100, some WAITING_FOR_PROMPT, []⟩, [.accessDenied], .ended) ∧
    (⟨some 100, some WAITING_FOR_PROMPT, []⟩ : UserData) ≠ UserData.empty := by
  constructor
  · simp [image_command, is_user, UserData.empty]
  · simp [UserData.empty]

/-- C6 (amended): for every caller not in the allow-list (no wildcard
configured), each gated entry command sends the denial reply and ends the
flow immediately; but before the check it refreshes `last_message_time`
(and /imagine also sets the `current_state` marker); no other session data
is touched on the denial path. -/
theorem denied_command_behavior (allowed : List String) (callerId : String)
    (now : ℚ) (u : UserData) (hdeny : is_user allowed callerId = false) :
    image_command allowed callerId now u =
      ({ u with lastMessageTime := some now,
                currentState := some WAITING_FOR_PROMPT },
        [.accessDenied], .ended) ∧
    upscale_command allowed callerId now u =
      ({ u with lastMessageTime := some now }, [.accessDenied], .ended) := by
  constructor
  · simp [image_command, hdeny]
  · simp [upscale_command, hdeny]

/-- Witness for C6 (amended): a concrete denied caller. -/
theorem denied_command_behavior_witness :
    image_command ["42"] "7" 100 ⟨some 3, none, [("prompt", "cat")]⟩ =
      (⟨some 100, some WAITING_FOR_PROMPT, [("prompt", "cat")]⟩,
        [.accessDenied], .ended) ∧
    upscale_command ["42"] "7" 100 ⟨some 3, none, [("prompt", "cat")]⟩ =
      (⟨some 100, none, [("prompt", "cat")]⟩, [.accessDenied], .ended) := by
  exact denied_command_behavior ["42"] "7" 100 ⟨some 3, none, [("prompt", "cat")]⟩
    (by decide)

/-! ### Outpaint geometry (helper.uncrop_image, lines 652-737)

Float arithmetic is modelled over the rationals.  Python `int()` truncates
toward zero; every value it is applied to here is nonnegative, so it is
embedded as `Int.floor`.  Float floor-division by 2 is also `Int.floor`
of the rational quotient. -/

/-- The anchor positions stored in `user_data["uncrop_position"]`:
`auto`, the four edges, and the four corners (strings such as
`"top_left"`); `uncrop_image` queries them by substring tests. -/
inductive UncropPos where
  | auto : UncropPos
  | top : UncropPos
  | bottom : UncropPos
  | left : UncropPos
  | right : UncropPos
  | topLeft : UncropPos
  | topRight : UncropPos
  | bottomLeft : UncropPos
  | bottomRight : UncropPos
deriving DecidableEq, Repr

/-- The Python test `"top" in position` on the position strings. -/
def UncropPos.hasTop : UncropPos → Bool
  | .top | .topLeft | .topRight => true
  | _ => false

/-- The Python test `"bottom" in position` on the position strings. -/
def UncropPos.hasBottom : UncropPos → Bool
  | .bottom | .bottomLeft | .bottomRight => true
  | _ => false

/-- The Python test `"left" in position` on the position strings. -/
def UncropPos.hasLeft : UncropPos → Bool
  | .left | .topLeft | .bottomLeft => true
  | _ => false

/-- The Python test `"right" in position` on the position strings. -/
def UncropPos.hasRight : UncropPos → Bool
  | .right | .topRight | .bottomRight => true
  | _ => false

/-- The four border-expansion amounts, in the order used by the request
payload. -/
structure Expansion where
  left : ℚ
  right : ℚ
  up : ℚ
  down : ℚ
deriving DecidableEq, Repr

/-- Embedding of the expansion computation of `uncrop_image` (lines
664-711), before the per-side clamp and pixel-budget rescale.  `w`, `h`
are the (already pre-resized) original dimensions and `rt` the parsed
target aspect ratio `float(parts[0]) / float(parts[1])`. -/
def computeExpansion (w h : ℕ) (rt : ℚ) (pos : UncropPos) : Expansion :=
  let wq : ℚ := w
  let hq : ℚ := h
  let originalR := wq / hq
  if pos = .auto then
    if rt > originalR then
      let newWidth := hq * rt
      let l : ℚ := ((⌊(newWidth - wq) / 2⌋ : ℤ) : ℚ)
      ⟨l, l, 0, 0⟩
    else
      let newHeight := wq / rt
      let u : ℚ := ((⌊(newHeight - hq) / 2⌋ : ℤ) : ℚ)
      ⟨0, 0, u, u⟩
  else
    let maxH : ℚ := if rt > originalR then max 0 (hq * rt - wq) else 0
    let maxV : ℚ := if rt > originalR then 0 else max 0 (wq / rt - hq)
    let u : ℚ :=
      if pos.hasTop then 0
      else if pos.hasBottom then maxV
      else ((⌊maxV / 2⌋ : ℤ) : ℚ)
    let d : ℚ :=
      if pos.hasTop then maxV
      else if pos.hasBottom then 0
      else maxV - ((⌊maxV / 2⌋ : ℤ) : ℚ)
    let l : ℚ :=
      if pos.hasLeft then 0
      else if pos.hasRight then maxH
      else ((⌊maxH / 2⌋ : ℤ) : ℚ)
    let r : ℚ :=
      if pos.hasLeft then maxH
      else if pos.hasRight then 0
      else maxH - ((⌊maxH / 2⌋ : ℤ) : ℚ)
    ⟨l, r, u, d⟩

/-- Final width after applying the computed expansions. -/
def finalWidth (w h : ℕ) (rt : ℚ) (pos : UncropPos) : ℚ :=
  w + (computeExpansion w h rt pos).left + (computeExpansion w h rt pos).right

/-- Final height after applying the computed expansions. -/
def finalHeight (w h : ℕ) (rt : ℚ) (pos : UncropPos) : ℚ :=
  h + (computeExpansion w h rt pos).up + (computeExpansion w h rt pos).down

/-- C7 counterexample: a 512 by 512 image with target ratio 1 and anchor
auto gets zero expansion on both axes, so it is not the case that exactly
one of the axis pairs is nonzero. -/
theorem uncrop_auto_both_axes_zero :
    computeExpansion 512 512 1 .auto = ⟨0, 0, 0, 0⟩ ∧
    ¬ (((computeExpansion 512 512 1 .auto).left +
          (computeExpansion 512 512 1 .auto).right ≠ 0) ∨
        ((computeExpansion 512 512 1 .auto).up +
          (computeExpansion 512 512 1 .auto).down ≠ 0)) := by
  have h : computeExpansion 512 512 1 .auto = ⟨0, 0, 0, 0⟩ := by
    norm_num [computeExpansion]
  exact ⟨h, by rw [h]; norm_num⟩

/-- C7 (amended): with anchor auto the expansion is centered on a single
axis — at most one of the axis pairs is nonzero — and the final dimensions
match the target ratio up to the rounding error of the integer halving
(cross-multiplied, the defect is below two times `max 1 rt`); with a corner
anchor, the two edges named by the corner get zero expansion. -/
theorem uncrop_geometry_amended :
    (∀ w h : ℕ, ∀ rt : ℚ, 1 ≤ w → 1 ≤ h → 0 < rt →
      ((computeExpansion w h rt .auto).left +
          (computeExpansion w h rt .auto).right = 0 ∨
        (computeExpansion w h rt .auto).up +
          (computeExpansion w h rt .auto).down = 0) ∧
      |finalWidth w h rt .auto - rt * finalHeight w h rt .auto| <
        2 * max 1 rt) ∧
    (∀ w h : ℕ, ∀ rt : ℚ,
      (computeExpansion w h rt .topLeft).up = 0 ∧
      (computeExpansion w h rt .topLeft).left = 0 ∧
      (computeExpansion w h rt .topRight).up = 0 ∧
      (computeExpansion w h rt .topRight).right = 0 ∧
      (computeExpansion w h rt .bottomLeft).down = 0 ∧
      (computeExpansion w h rt .bottomLeft).left = 0 ∧
      (computeExpansion w h rt .bottomRight).down = 0 ∧
      (computeExpansion w h rt .bottomRight).right = 0) := by
  constructor
  · intro w h rt hw hh hrt
    have hwq : (1 : ℚ) ≤ (w : ℚ) := by exact_mod_cast hw
    have hhq : (1 : ℚ) ≤ (h : ℚ) := by exact_mod_cast hh
    have hmax : (1 : ℚ) ≤ max 1 rt := le_max_left 1 rt
    have hmaxr : rt ≤ max 1 rt := le_max_right 1 rt
    by_cases hcase : rt > (w : ℚ) / (h : ℚ)
    · have hx : (0 : ℚ) < (h : ℚ) * rt - w := by
        have := (div_lt_iff₀ (by linarith : (0 : ℚ) < h)).mp hcase
        linarith
      have hgeo : computeExpansion w h rt .auto =
          ⟨((⌊((h : ℚ) * rt - w) / 2⌋ : ℤ) : ℚ),
           ((⌊((h : ℚ) * rt - w) / 2⌋ : ℤ) : ℚ), 0, 0⟩ := by
        simp [computeExpansion, hcase]
      set l : ℚ := ((⌊((h : ℚ) * rt - w) / 2⌋ : ℤ) : ℚ) with hl
      have hl1 : l ≤ ((h : ℚ) * rt - w) / 2 := Int.floor_le _
      have hl2 : ((h : ℚ) * rt - w) / 2 - 1 < l := Int.sub_one_lt_floor _
      constructor
      · right
        rw [hgeo]
        norm_num
      · rw [abs_lt]
        unfold finalWidth finalHeight
        rw [hgeo]
        constructor
        · simp only []
          nlinarith
        · simp only []
          nlinarith
    · have h1 : rt * (h : ℚ) ≤ w := by
        rw [not_lt] at hcase
        exact (le_div_iff₀ (by linarith : (0 : ℚ) < (h : ℚ))).mp hcase
      have h2 : (h : ℚ) ≤ (w : ℚ) / rt := by
        rw [le_div_iff₀ hrt]
        linarith [mul_comm (h : ℚ) rt]
      have hy : (0 : ℚ) ≤ (w : ℚ) / rt - h := by linarith
      have hgeo : computeExpansion w h rt .auto =
          ⟨0, 0, ((⌊((w : ℚ) / rt - h) / 2⌋ : ℤ) : ℚ),
           ((⌊((w : ℚ) / rt - h) / 2⌋ : ℤ) : ℚ)⟩ := by
        simp [computeExpansion, hcase]
      set u : ℚ := ((⌊((w : ℚ) / rt - h) / 2⌋ : ℤ) : ℚ) with hu
      have hu1 : u ≤ ((w : ℚ) / rt - h) / 2 := Int.floor_le _
      have hu2 : ((w : ℚ) / rt - h) / 2 - 1 < u := Int.sub_one_lt_floor _
      have hkey : rt * ((w : ℚ) / rt - h) = w - rt * h := by
        field_simp
      constructor
      · left
        rw [hgeo]
        norm_num
      · rw [abs_lt]
        unfold finalWidth finalHeight
        rw [hgeo]
        constructor
        · simp only []
          nlinarith
        · simp only []
          nlinarith
  · intro w h rt
    refine ⟨?_, ?_, ?_, ?_, ?_, ?_, ?_, ?_⟩ <;>
      simp [computeExpansion, UncropPos.hasTop, UncropPos.hasBottom,
        UncropPos.hasLeft, UncropPos.hasRight]

/-- Witness for C7 (amended): a 300 by 200 original, target ratio 2,
anchor auto (single-axis centered expansion within tolerance), and the
top-left corner anchor (zero expansion on top and left edges). -/
theorem uncrop_geometry_amended_witness :
    (((computeExpansion 300 200 2 .auto).left +
        (computeExpansion 300 200 2 .auto).right = 0 ∨
      (computeExpansion 300 200 2 .auto).up +
        (computeExpansion 300 200 2 .auto).down = 0) ∧
     |finalWidth 300 200 2 .auto - 2 * finalHeight 300 200 2 .auto| <
       2 * max 1 2) ∧
    (computeExpansion 300 200 2 .topLeft).up = 0 ∧
    (computeExpansion 300 200 2 .topLeft).left = 0 :=
  ⟨uncrop_geometry_amended.1 300 200 2 (by norm_num) (by norm_num) (by norm_num),
   (uncrop_geometry_amended.2 300 200 2).1,
   (uncrop_geometry_amended.2 300 200 2).2.1⟩

/-! ### Outpaint clamp and pixel-budget rescale (helper.uncrop_image,
lines 713-728) -/

/-- `MAX_PIXELS = 1_048_576`, the upstream pixel budget. -/
def MAX_PIXELS : ℚ := 1048576

/-- Embedding of the clamp-and-rescale block of `uncrop_image`: each
expansion is clamped to 1024, and if the prospective final pixel count
still exceeds the budget, all four clamped amounts are multiplied by the
scale factor `s` and truncated.  In the source `s` is computed as
`(MAX_PIXELS / (final_width * final_height)) ** 0.5`; the irrational
square root is passed here as an explicit parameter, constrained in the
theorems by its defining equation. -/
def uncropClampScale (w h : ℕ) (e : Expansion) (s : ℚ) : Expansion :=
  if ((w : ℚ) + min e.left 1024 + min e.right 1024) *
      ((h : ℚ) + min e.up 1024 + min e.down 1024) > MAX_PIXELS then
    ⟨((⌊min e.left 1024 * s⌋ : ℤ) : ℚ), ((⌊min e.right 1024 * s⌋ : ℤ) : ℚ),
     ((⌊min e.up 1024 * s⌋ : ℤ) : ℚ), ((⌊min e.down 1024 * s⌋ : ℤ) : ℚ)⟩
  else ⟨min e.left 1024, min e.right 1024, min e.up 1024, min e.down 1024⟩

/-- C8 counterexample: a 512 by 640 original with clamped expansions 1024,
1024, 0, 0 is over budget (2560 times 640 pixels); the exact scale factor
is 4/5, yet after rescaling the final pixel count 2150 times 640 =
1,376,000 still exceeds the 1,048,576 budget, because only the expansions
— not the original dimensions — are scaled. -/
theorem uncrop_scale_misses_budget :
    (4 / 5 : ℚ) ^ 2 * (((512 : ℚ) + 1024 + 1024) * ((640 : ℚ) + 0 + 0)) =
      MAX_PIXELS ∧
    ((512 : ℚ) + 1024 + 1024) * ((640 : ℚ) + 0 + 0) > MAX_PIXELS ∧
    uncropClampScale 512 640 ⟨1024, 1024, 0, 0⟩ (4 / 5) = ⟨819, 819, 0, 0⟩ ∧
    ((512 : ℚ) + 819 + 819) * ((640 : ℚ) + 0 + 0) > MAX_PIXELS := by
  have hf1 : ⌊(1024 * (4 / 5) : ℚ)⌋ = 819 := by
    rw [Int.floor_eq_iff]
    norm_num
  refine ⟨by norm_num [MAX_PIXELS], by norm_num [MAX_PIXELS], ?_,
    by norm_num [MAX_PIXELS]⟩
  simp only [uncropClampScale]
  norm_num [MAX_PIXELS, hf1]

/-- C8 (amended): each expansion amount is clamped to at most 1024; when
the prospective final pixel count exceeds the budget all four clamped
amounts are scaled by the same factor (the square root of budget over
final count) and truncated, and each scaled amount is no larger than its
clamped original — but the final pixel count is not guaranteed to meet the
budget afterwards. -/
theorem uncrop_clamp_scale_amended (w h : ℕ) (e : Expansion) (s : ℚ)
    (hl : 0 ≤ e.left) (hr : 0 ≤ e.right) (hu : 0 ≤ e.up) (hd : 0 ≤ e.down)
    (hs0 : 0 ≤ s)
    (hsq : s ^ 2 * (((w : ℚ) + min e.left 1024 + min e.right 1024) *
        ((h : ℚ) + min e.up 1024 + min e.down 1024)) = MAX_PIXELS) :
    ((uncropClampScale w h e s).left ≤ 1024 ∧
     (uncropClampScale w h e s).right ≤ 1024 ∧
     (uncropClampScale w h e s).up ≤ 1024 ∧
     (uncropClampScale w h e s).down ≤ 1024) ∧
    (((w : ℚ) + min e.left 1024 + min e.right 1024) *
        ((h : ℚ) + min e.up 1024 + min e.down 1024) > MAX_PIXELS →
      uncropClampScale w h e s =
        ⟨((⌊min e.left 1024 * s⌋ : ℤ) : ℚ), ((⌊min e.right 1024 * s⌋ : ℤ) : ℚ),
         ((⌊min e.up 1024 * s⌋ : ℤ) : ℚ), ((⌊min e.down 1024 * s⌋ : ℤ) : ℚ)⟩ ∧
      (uncropClampScale w h e s).left ≤ min e.left 1024 ∧
      (uncropClampScale w h e s).right ≤ min e.right 1024 ∧
      (uncropClampScale w h e s).up ≤ min e.up 1024 ∧
      (uncropClampScale w h e s).down ≤ min e.down 1024) := by
  have hs1 : (((w : ℚ) + min e.left 1024 + min e.right 1024) *
      ((h : ℚ) + min e.up 1024 + min e.down 1024) > MAX_PIXELS) → s ≤ 1 := by
    intro hover
    by_contra hc
    push_neg at hc
    have hsq2 : (1 : ℚ) < s ^ 2 := by nlinarith
    have hmaxpos : (0 : ℚ) < MAX_PIXELS := by norm_num [MAX_PIXELS]
    nlinarith
  have flb : ∀ a : ℚ, 0 ≤ a → s ≤ 1 → ((⌊a * s⌋ : ℤ) : ℚ) ≤ a := by
    intro a ha hs1a
    calc ((⌊a * s⌋ : ℤ) : ℚ) ≤ a * s := Int.floor_le _
    _ ≤ a * 1 := by nlinarith
    _ = a := mul_one a
  by_cases hover : ((w : ℚ) + min e.left 1024 + min e.right 1024) *
      ((h : ℚ) + min e.up 1024 + min e.down 1024) > MAX_PIXELS
  · have hs1v := hs1 hover
    have heq : uncropClampScale w h e s =
        ⟨((⌊min e.left 1024 * s⌋ : ℤ) : ℚ), ((⌊min e.right 1024 * s⌋ : ℤ) : ℚ),
         ((⌊min e.up 1024 * s⌋ : ℤ) : ℚ), ((⌊min e.down 1024 * s⌋ : ℤ) : ℚ)⟩ := by
      simp only [uncropClampScale, if_pos hover]
    have bl := flb (min e.left 1024) (le_min hl (by norm_num)) hs1v
    have br := flb (min e.right 1024) (le_min hr (by norm_num)) hs1v
    have bu := flb (min e.up 1024) (le_min hu (by norm_num)) hs1v
    have bd := flb (min e.down 1024) (le_min hd (by norm_num)) hs1v
    refine ⟨⟨?_, ?_, ?_, ?_⟩, fun _ => ⟨heq, ?_, ?_, ?_, ?_⟩⟩ <;>
      rw [heq] <;>
      simp only [] <;>
      [skip; skip; skip; skip; exact bl; exact br; exact bu; exact bd]
    · exact le_trans bl (min_le_right _ _)
    · exact le_trans br (min_le_right _ _)
    · exact le_trans bu (min_le_right _ _)
    · exact le_trans bd (min_le_right _ _)
  · have heq : uncropClampScale w h e s =
        ⟨min e.left 1024, min e.right 1024, min e.up 1024, min e.down 1024⟩ := by
      simp only [uncropClampScale, if_neg hover]
    refine ⟨⟨?_, ?_, ?_, ?_⟩, fun hc => absurd hc hover⟩ <;>
      rw [heq] <;> exact min_le_right _ _

/-- Witness for C8 (amended): the clamp bound and the scaled-below-original
bound at the concrete over-budget input of the counterexample. -/
theorem uncrop_clamp_scale_amended_witness :
    (uncropClampScale 512 640 ⟨1024, 1024, 0, 0⟩ (4 / 5)).left ≤ 1024 ∧
    (uncropClampScale 512 640 ⟨1024, 1024, 0, 0⟩ (4 / 5)).left ≤
      min (1024 : ℚ) 1024 := by
  have h := uncrop_clamp_scale_amended 512 640 ⟨1024, 1024, 0, 0⟩ (4 / 5)
    (by norm_num) (by norm_num) (by norm_num) (by norm_num) (by norm_num)
    (by norm_num [MAX_PIXELS])
  exact ⟨h.1.1, (h.2 (by norm_num [MAX_PIXELS])).2.1⟩

/-! ### Pre-upload pixel-budget resize (helper.upscale_image lines 363-377,
helper.generate_image_v2 lines 240-267, helper.uncrop_image lines 630-650) -/

/-- The files the pre-upload step can reference: the caller's original
input file and the separate downscaled temporary file. -/
inductive ImgFile where
  | original : ImgFile
  | resizedTemp : ImgFile
deriving DecidableEq, Repr

/-- Observable outcome of the pre-upload resize step: the dimensions of
the image that will be uploaded, which file is used for the request, and
which files were written. -/
structure ResizeOutcome where
  newW : ℤ
  newH : ℤ
  usedPath : ImgFile
  writes : List ImgFile
deriving DecidableEq, Repr

/-- Embedding of the pre-upload resize: when the pixel count exceeds
`MAX_PIXELS`, scale both dimensions by `s` (in the source
`(MAX_PIXELS / total_pixels) ** 0.5`, passed here as an explicit
parameter constrained by its defining equation), truncate with `int()`
(`Int.floor` on these nonnegative values), write the downscaled copy to a
separate temporary file and use it for the request; otherwise use the
original file untouched.  No branch writes to the original file. -/
def resizeToBudget (w h : ℕ) (s : ℚ) : ResizeOutcome :=
  if (w : ℚ) * h > MAX_PIXELS then
    ⟨⌊(w : ℚ) * s⌋, ⌊(h : ℚ) * s⌋, .resizedTemp, [.resizedTemp]⟩
  else ⟨w, h, .original, []⟩

/-- C9: for dimensions over the pixel budget, the resize outputs
dimensions within the budget with the aspect ratio preserved up to
truncation error (cross-multiplied defect below `max w h`), the downscaled
copy is written to a separate file and used for the request, and the
original file is never written. -/
theorem resize_to_budget_correct (w h : ℕ) (s : ℚ) (hw : 1 ≤ w) (hh : 1 ≤ h)
    (hbig : (w : ℚ) * h > MAX_PIXELS) (hs0 : 0 ≤ s)
    (hsq : s ^ 2 * ((w : ℚ) * h) = MAX_PIXELS) :
    ((resizeToBudget w h s).newW : ℚ) * ((resizeToBudget w h s).newH : ℚ) ≤
      MAX_PIXELS ∧
    |((resizeToBudget w h s).newW : ℚ) * h -
      ((resizeToBudget w h s).newH : ℚ) * w| < max (w : ℚ) (h : ℚ) ∧
    (resizeToBudget w h s).usedPath = .resizedTemp ∧
    (resizeToBudget w h s).writes = [.resizedTemp] ∧
    ImgFile.original ∉ (resizeToBudget w h s).writes := by
  have hwq : (1 : ℚ) ≤ (w : ℚ) := by exact_mod_cast hw
  have hhq : (1 : ℚ) ≤ (h : ℚ) := by exact_mod_cast hh
  have heq : resizeToBudget w h s =
      ⟨⌊(w : ℚ) * s⌋, ⌊(h : ℚ) * s⌋, .resizedTemp, [.resizedTemp]⟩ := by
    simp only [resizeToBudget, if_pos hbig]
  rw [heq]
  have ha1 : ((⌊(w : ℚ) * s⌋ : ℤ) : ℚ) ≤ (w : ℚ) * s := Int.floor_le _
  have ha2 : (w : ℚ) * s - 1 < ((⌊(w : ℚ) * s⌋ : ℤ) : ℚ) := Int.sub_one_lt_floor _
  have hb1 : ((⌊(h : ℚ) * s⌋ : ℤ) : ℚ) ≤ (h : ℚ) * s := Int.floor_le _
  have hb2 : (h : ℚ) * s - 1 < ((⌊(h : ℚ) * s⌋ : ℤ) : ℚ) := Int.sub_one_lt_floor _
  have ha0 : (0 : ℚ) ≤ ((⌊(w : ℚ) * s⌋ : ℤ) : ℚ) := by
    have h0 : (0 : ℤ) ≤ ⌊(w : ℚ) * s⌋ := Int.floor_nonneg.mpr (by positivity)
    exact_mod_cast h0
  have hb0 : (0 : ℚ) ≤ ((⌊(h : ℚ) * s⌋ : ℤ) : ℚ) := by
    have h0 : (0 : ℤ) ≤ ⌊(h : ℚ) * s⌋ := Int.floor_nonneg.mpr (by positivity)
    exact_mod_cast h0
  refine ⟨?_, ?_, rfl, rfl, by simp⟩
  · simp only []
    nlinarith
  · simp only []
    rw [abs_lt]
    constructor
    · nlinarith [le_max_right (w : ℚ) (h : ℚ), le_max_left (w : ℚ) (h : ℚ)]
    · nlinarith [le_max_right (w : ℚ) (h : ℚ), le_max_left (w : ℚ) (h : ℚ)]

/-- Witness for C9: a 2048 by 2048 input (four times the budget) with
exact scale factor one half: the upload is the separate downscaled
1024 by 1024 copy and the original is untouched. -/
theorem resize_to_budget_correct_witness :
    ((resizeToBudget 2048 2048 (1 / 2)).newW : ℚ) *
      ((resizeToBudget 2048 2048 (1 / 2)).newH : ℚ) ≤ MAX_PIXELS ∧
    (resizeToBudget 2048 2048 (1 / 2)).usedPath = .resizedTemp ∧
    ImgFile.original ∉ (resizeToBudget 2048 2048 (1 / 2)).writes := by
  have h := resize_to_budget_correct 2048 2048 (1 / 2) (by norm_num) (by norm_num)
    (by norm_num [MAX_PIXELS]) (by norm_num) (by norm_num [MAX_PIXELS])
  exact ⟨h.1, h.2.2.1, h.2.2.2.2⟩

end ImageBot
